import Mathlib

/-!
Verification of the funding-spread stat collector core.

Shallow embedding of the repository's core services:
- `Strategy1Service.findBestOpportunity` (rate arbitrage matcher),
- `Strategy2Service.findBestOpportunity` (timing arbitrage matcher),
- `CommissionService.calculateCommissions`,
- `StrategyAllocatorService.allocateStrategy` / `calculateNetProfit`,
- `FundingMonitoringService` (arming / firing / cancelling one-shot checks),
- `StrategySchedulerService.simulateTradeEntry`.

Numbers are modelled as exact rationals; epoch timestamps are rationals in
milliseconds.  A JavaScript exception is modelled as `Option.none`.  The one
place where IEEE-754 non-finite values matter (division by a zero original
funding rate in the stability check) is modelled by the small type `JNum`
below.  Log statements, human-readable `reason` strings and the external
Google-Sheets write are presentation-only effects and are not modelled.
-/

/-- One venue's entry in a snapshot (`ExchangeFundingData` in the source).
`fundingRate` is `none` when the JSON field is `null`/`undefined` (the
matchers test `data.fundingRate !== null && data.fundingRate !== undefined`).
`nextFundingTime` is an epoch-milliseconds value; the matchers additionally
require it to be truthy, i.e. nonzero. -/
structure ExchangeFundingData where
  fundingRate : Option ℚ
  nextFundingTime : ℚ
deriving DecidableEq

/-- A per-ticker snapshot (`SpreadData` in the source).  The seven optional
venue fields are modelled as one sparse map from venue name to quote; only
the seven hard-coded venue names are ever consulted. -/
structure SpreadData where
  ticker : String
  quotes : String → Option ExchangeFundingData

/-- The hard-coded venue list that both matchers iterate over
(`['binance', 'bybit', 'bitget', 'bingx', 'mexc', 'bitmex', 'okx']`). -/
def scannedExchanges : List String :=
  ["binance", "bybit", "bitget", "bingx", "mexc", "bitmex", "okx"]

/-- An element of the `availableExchanges` working list built by both
matchers. -/
structure AvailableExchange where
  exchange : String
  fundingRate : ℚ
  nextFundingTime : ℚ
deriving DecidableEq

/-- The `availableExchanges` collection phase shared by both matchers:
keep a venue when its quote is present, its funding rate is non-null and its
`nextFundingTime` is truthy. -/
def availableExchanges (tickerData : SpreadData) : List AvailableExchange :=
  scannedExchanges.filterMap (fun exch =>
    match tickerData.quotes exch with
    | none => none
    | some d =>
      match d.fundingRate with
      | none => none
      | some r =>
        if d.nextFundingTime ≠ 0 then
          some ⟨exch, r, d.nextFundingTime⟩
        else
          none)

/-- `Math.abs` on an exactly-represented number.  Written with an explicit
comparison so that it evaluates by kernel reduction; equal to Mathlib's
`|q|` (see `mathAbs_eq_abs`). -/
def mathAbs (q : ℚ) : ℚ := if q < 0 then -q else q

/-- `Math.min` of two exactly-represented numbers; equal to Mathlib's
`min` (see `mathMin_eq_min`). -/
def mathMin (a b : ℚ) : ℚ := if a ≤ b then a else b

/-- `Strategy1Config` from the source. All time quantities are minutes. -/
structure Strategy1Config where
  minFundingDiff : ℚ
  maxTimeDiff : ℚ
  minTimeToFunding : ℚ
  maxTimeToFunding : ℚ

/-- Default Strategy-1 configuration from the source. -/
def defaultStrategy1Config : Strategy1Config :=
  { minFundingDiff := 0.0015
    maxTimeDiff := 5
    minTimeToFunding := 3
    maxTimeToFunding := 15 }

/-- `Strategy2Config` from the source. -/
structure Strategy2Config where
  minTimeDiff : ℚ
  minTimeToFunding : ℚ
  maxTimeToFunding : ℚ
  minAbsFundingRate : ℚ

/-- Default Strategy-2 configuration from the source. -/
def defaultStrategy2Config : Strategy2Config :=
  { minTimeDiff := 30
    minTimeToFunding := 4
    maxTimeToFunding := 15
    minAbsFundingRate := 0.002 }

/-- The `strategy` discriminator of `StrategyOpportunity`. -/
inductive StrategyKind where
  | rateArbitrage
  | timingArbitrage
deriving DecidableEq

/-- `StrategyOpportunity` from the source. -/
structure StrategyOpportunity where
  ticker : String
  longExchange : String
  shortExchange : String
  longFundingRate : ℚ
  shortFundingRate : ℚ
  fundingDiff : ℚ
  nextFundingTime : ℚ
  timeToFunding : ℚ
  strategy : StrategyKind
deriving DecidableEq

/-- The ordered `(i, j)` with `i < j` pairs visited by the double loop
`for i ...; for j = i+1 ...` over a list. -/
def allPairs {α : Type} : List α → List (α × α)
  | [] => []
  | x :: xs => xs.map (fun y => (x, y)) ++ allPairs xs

/-- Body of Strategy 1's pair loop (`strategy1.service.ts`, lines 78–117):
the three filters (payout-time skew at most `maxTimeDiff` minutes, rate
difference at least `minFundingDiff`, minutes to the earliest payout within
`[minTimeToFunding, maxTimeToFunding]`) and the long/short assignment (the
venue with the lower funding rate becomes the long leg).  `now` is the
`Date.now()` value, constant over one invocation. -/
def strategy1CheckPair (cfg : Strategy1Config) (now : ℚ) (ticker : String)
    (e1 e2 : AvailableExchange) : Option StrategyOpportunity :=
  let timeDiff := mathAbs (e1.nextFundingTime - e2.nextFundingTime) / (1000 * 60)
  if timeDiff > cfg.maxTimeDiff then none
  else
    let fundingDiff := mathAbs (e1.fundingRate - e2.fundingRate)
    if fundingDiff < cfg.minFundingDiff then none
    else
      let timeToFunding1 := (e1.nextFundingTime - now) / (1000 * 60)
      let timeToFunding2 := (e2.nextFundingTime - now) / (1000 * 60)
      let minTimeToFunding := mathMin timeToFunding1 timeToFunding2
      if minTimeToFunding < cfg.minTimeToFunding ∨
          minTimeToFunding > cfg.maxTimeToFunding then none
      else
        let longEx := if e1.fundingRate < e2.fundingRate then e1 else e2
        let shortEx := if e1.fundingRate < e2.fundingRate then e2 else e1
        some
          { ticker := ticker
            longExchange := longEx.exchange
            shortExchange := shortEx.exchange
            longFundingRate := longEx.fundingRate
            shortFundingRate := shortEx.fundingRate
            fundingDiff := fundingDiff
            nextFundingTime := mathMin e1.nextFundingTime e2.nextFundingTime
            timeToFunding := minTimeToFunding
            strategy := .rateArbitrage }

/-- The `reduce` at the end of both matchers: JavaScript
`reduce((best, current) => current.fundingDiff > best.fundingDiff ? current : best)`
on a nonempty list, i.e. a left fold started at the head. -/
def pickBestOpportunity (o : StrategyOpportunity) (rest : List StrategyOpportunity) :
    StrategyOpportunity :=
  rest.foldl (fun best current =>
    if current.fundingDiff > best.fundingDiff then current else best) o

/-- `Strategy1Service.findBestOpportunity`. -/
def strategy1FindBestOpportunity (now : ℚ) (tickerData : SpreadData)
    (cfg : Strategy1Config) : Option StrategyOpportunity :=
  let avail := availableExchanges tickerData
  if avail.length < 2 then none
  else
    match (allPairs avail).filterMap
        (fun p => strategy1CheckPair cfg now tickerData.ticker p.1 p.2) with
    | [] => none
    | o :: rest => some (pickBestOpportunity o rest)

/-- Body of Strategy 2's pair loop (`strategy2.service.ts`, lines 78–124):
payout-time skew at least `minTimeDiff` minutes, each leg's absolute rate at
least `minAbsFundingRate`, minutes to earliest payout within the window, and
the temporal ordering of legs (the leg with the earlier payout is recorded
first, as `longExchange`). -/
def strategy2CheckPair (cfg : Strategy2Config) (now : ℚ) (ticker : String)
    (e1 e2 : AvailableExchange) : Option StrategyOpportunity :=
  let timeDiff := mathAbs (e1.nextFundingTime - e2.nextFundingTime) / (1000 * 60)
  if timeDiff < cfg.minTimeDiff then none
  else
    let absFundingRate1 := mathAbs e1.fundingRate
    let absFundingRate2 := mathAbs e2.fundingRate
    if absFundingRate1 < cfg.minAbsFundingRate ∨
        absFundingRate2 < cfg.minAbsFundingRate then none
    else
      let timeToFunding1 := (e1.nextFundingTime - now) / (1000 * 60)
      let timeToFunding2 := (e2.nextFundingTime - now) / (1000 * 60)
      let minTimeToFunding := mathMin timeToFunding1 timeToFunding2
      if minTimeToFunding < cfg.minTimeToFunding ∨
          minTimeToFunding > cfg.maxTimeToFunding then none
      else
        let totalFundingPotential := absFundingRate1 + absFundingRate2
        let firstEx := if e1.nextFundingTime < e2.nextFundingTime then e1 else e2
        let secondEx := if e1.nextFundingTime < e2.nextFundingTime then e2 else e1
        some
          { ticker := ticker
            longExchange := firstEx.exchange
            shortExchange := secondEx.exchange
            longFundingRate := firstEx.fundingRate
            shortFundingRate := secondEx.fundingRate
            fundingDiff := totalFundingPotential
            nextFundingTime := firstEx.nextFundingTime
            timeToFunding := minTimeToFunding
            strategy := .timingArbitrage }

/-- `Strategy2Service.findBestOpportunity`. -/
def strategy2FindBestOpportunity (now : ℚ) (tickerData : SpreadData)
    (cfg : Strategy2Config) : Option StrategyOpportunity :=
  let avail := availableExchanges tickerData
  if avail.length < 2 then none
  else
    match (allPairs avail).filterMap
        (fun p => strategy2CheckPair cfg now tickerData.ticker p.1 p.2) with
    | [] => none
    | o :: rest => some (pickBestOpportunity o rest)

/-- `ExchangeFees` from `exchange-fees.interface.ts`. -/
structure ExchangeFees where
  maker : ℚ
  taker : ℚ
deriving DecidableEq

/-- The static `EXCHANGE_FEES` registry from `exchange-fees.interface.ts`.
It contains exactly six venues; a lookup of any other key (notably
`"mexc"`) yields `none`, which in the source is a falsy `undefined`. -/
def EXCHANGE_FEES (exch : String) : Option ExchangeFees :=
  if exch = "binance" then some ⟨0.0002, 0.0004⟩
  else if exch = "bybit" then some ⟨0.0002, 0.00055⟩
  else if exch = "bitget" then some ⟨0.0002, 0.0006⟩
  else if exch = "bingx" then some ⟨0.0002, 0.0005⟩
  else if exch = "bitmex" then some ⟨-0.0001, 0.00075⟩
  else if exch = "okx" then some ⟨0.0002, 0.0005⟩
  else none

/-- The `commissionType` discriminator of `TradeCommission`. -/
inductive CommissionType where
  | allMarket
  | limitMarket
deriving DecidableEq

/-- `TradeCommission` from the source. -/
structure TradeCommission where
  entryCommissionLong : ℚ
  entryCommissionShort : ℚ
  exitCommissionLong : ℚ
  exitCommissionShort : ℚ
  totalCommission : ℚ
  commissionType : CommissionType
deriving DecidableEq

/-- `CommissionService.calculateCommissions`.  The source throws when either
venue is missing from `EXCHANGE_FEES`; the throw is modelled as `none`.
`useLimit = false` charges all four legs at taker rates; `useLimit = true`
charges entries at maker and exits at taker rates. -/
def calculateCommissions (longExchange shortExchange : String)
    (positionSize : ℚ) (useLimit : Bool) : Option TradeCommission :=
  match EXCHANGE_FEES longExchange, EXCHANGE_FEES shortExchange with
  | some longFees, some shortFees =>
    let entryCommissionLong :=
      if useLimit then positionSize * longFees.maker else positionSize * longFees.taker
    let entryCommissionShort :=
      if useLimit then positionSize * shortFees.maker else positionSize * shortFees.taker
    let exitCommissionLong := positionSize * longFees.taker
    let exitCommissionShort := positionSize * shortFees.taker
    some
      { entryCommissionLong := entryCommissionLong
        entryCommissionShort := entryCommissionShort
        exitCommissionLong := exitCommissionLong
        exitCommissionShort := exitCommissionShort
        totalCommission :=
          entryCommissionLong + entryCommissionShort +
            exitCommissionLong + exitCommissionShort
        commissionType := if useLimit then .limitMarket else .allMarket }
  | _, _ => none

/-- Fixed `POSITION_SIZE` of the allocator and the trade-entry simulation. -/
def POSITION_SIZE : ℚ := 1000

/-- Result record of `StrategyAllocatorService.calculateNetProfit`. -/
structure NetProfitResult where
  opportunity : StrategyOpportunity
  grossProfit : ℚ
  totalCommissions : ℚ
  netProfit : ℚ
  commissionType : CommissionType
deriving DecidableEq

/-- `StrategyAllocatorService.calculateNetProfit`: gross profit is
`fundingDiff * POSITION_SIZE`; both commission policies are quoted for the
opportunity's venue pair and the one with the strictly lower total wins
(ties keep the all-market quote, with the same total).  A throw from
`calculateCommissions` propagates as `none`. -/
def calculateNetProfit (opportunity : StrategyOpportunity) : Option NetProfitResult :=
  let grossProfit := opportunity.fundingDiff * POSITION_SIZE
  match calculateCommissions opportunity.longExchange opportunity.shortExchange
      POSITION_SIZE false,
    calculateCommissions opportunity.longExchange opportunity.shortExchange
      POSITION_SIZE true with
  | some marketCommissions, some limitMarketCommissions =>
    let bestCommissions :=
      if limitMarketCommissions.totalCommission < marketCommissions.totalCommission
      then limitMarketCommissions else marketCommissions
    some
      { opportunity := opportunity
        grossProfit := grossProfit
        totalCommissions := bestCommissions.totalCommission
        netProfit := grossProfit - bestCommissions.totalCommission
        commissionType := bestCommissions.commissionType }
  | _, _ => none

/-- The `action` discriminator of `StrategyDecision`. -/
inductive DecisionAction where
  | enterStrategy1
  | enterStrategy2
  | enterBoth
  | skip
deriving DecidableEq

/-- `StrategyDecision` from the source (the human-readable `reason` string
is presentation-only and not modelled). -/
structure StrategyDecision where
  action : DecisionAction
  selectedOpportunities : List StrategyOpportunity
  totalPotentialProfit : ℚ
  totalCommissions : ℚ
  netProfit : ℚ
  positionSize : ℚ
deriving DecidableEq

/-- The `skip` decision built when both opportunity lists are empty. -/
def skipDecision : StrategyDecision :=
  { action := .skip
    selectedOpportunities := []
    totalPotentialProfit := 0
    totalCommissions := 0
    netProfit := 0
    positionSize := POSITION_SIZE }

/-- The `enter_strategy1` decision built from a netted candidate. -/
def enterStrategy1Decision (b : NetProfitResult) : StrategyDecision :=
  { action := .enterStrategy1
    selectedOpportunities := [b.opportunity]
    totalPotentialProfit := b.grossProfit
    totalCommissions := b.totalCommissions
    netProfit := b.netProfit
    positionSize := POSITION_SIZE }

/-- The `enter_strategy2` decision built from a netted candidate. -/
def enterStrategy2Decision (b : NetProfitResult) : StrategyDecision :=
  { action := .enterStrategy2
    selectedOpportunities := [b.opportunity]
    totalPotentialProfit := b.grossProfit
    totalCommissions := b.totalCommissions
    netProfit := b.netProfit
    positionSize := POSITION_SIZE }

/-- The `enter_both` decision built from two netted candidates on different
tickers (doubled position size, summed profits and commissions). -/
def enterBothDecision (b1 b2 : NetProfitResult) : StrategyDecision :=
  { action := .enterBoth
    selectedOpportunities := [b1.opportunity, b2.opportunity]
    totalPotentialProfit := b1.grossProfit + b2.grossProfit
    totalCommissions := b1.totalCommissions + b2.totalCommissions
    netProfit := b1.netProfit + b2.netProfit
    positionSize := POSITION_SIZE * 2 }

/-- `StrategyAllocatorService.allocateStrategy`.  Mirrors the source's
control flow: both lists empty gives `skip`; otherwise the head of each
nonempty list is netted (a commission throw propagates as `none`); one
candidate is entered directly; two candidates on different tickers give
`enter_both`; two candidates on the same ticker are compared by net profit
with `>=` favouring strategy 1. -/
def allocateStrategy (strategy1Opportunities strategy2Opportunities :
    List StrategyOpportunity) : Option StrategyDecision :=
  match strategy1Opportunities, strategy2Opportunities with
  | [], [] => some skipDecision
  | o1 :: _, [] =>
    match calculateNetProfit o1 with
    | none => none
    | some b1 => some (enterStrategy1Decision b1)
  | [], o2 :: _ =>
    match calculateNetProfit o2 with
    | none => none
    | some b2 => some (enterStrategy2Decision b2)
  | o1 :: _, o2 :: _ =>
    match calculateNetProfit o1 with
    | none => none
    | some b1 =>
      match calculateNetProfit o2 with
      | none => none
      | some b2 =>
        if b1.opportunity.ticker ≠ b2.opportunity.ticker then
          some (enterBothDecision b1 b2)
        else if b1.netProfit ≥ b2.netProfit then
          some (enterStrategy1Decision b1)
        else
          some (enterStrategy2Decision b2)

/-- JavaScript number values arising in the stability computation.  All
operands there are exactly representable in our model, and the only
non-finite values are produced by dividing by a zero original rate, so this
four-value type (finite, +Infinity, -Infinity, NaN) captures the IEEE-754
behaviour of the expressions involved exactly. -/
inductive JNum where
  | fin (q : ℚ)
  | inf
  | neginf
  | nan
deriving DecidableEq

/-- IEEE-754 division of two (exactly represented) finite numbers:
`x / 0` is `NaN` when `x = 0`, `±Infinity` otherwise. -/
def jdiv (a b : ℚ) : JNum :=
  if b = 0 then
    if a = 0 then .nan else if a > 0 then .inf else .neginf
  else .fin (a / b)

/-- IEEE-754 multiplication of a `JNum` by the positive constant 100. -/
def jmul100 : JNum → JNum
  | .fin q => .fin (q * 100)
  | .inf => .inf
  | .neginf => .neginf
  | .nan => .nan

/-- IEEE-754 comparison `x <= c` for a finite constant `c`: false when `x`
is `NaN` or `+Infinity`, true when `-Infinity`. -/
def jle (x : JNum) (c : ℚ) : Bool :=
  match x with
  | .fin q => decide (q ≤ c)
  | .inf => false
  | .neginf => true
  | .nan => false

/-- The position id `${ticker}_${exchange}_${Date.now()}`, kept as its three
components. -/
structure PositionId where
  ticker : String
  exchange : String
  armedAt : ℚ
deriving DecidableEq

/-- `PositionMonitoring` from `position-monitoring.interface.ts`.
`timeoutId` is `true` when a timer handle is attached (a NodeJS `Timeout`
object is always truthy). -/
structure PositionMonitoring where
  id : PositionId
  ticker : String
  exchange : String
  originalFundingRate : ℚ
  nextFundingTime : ℚ
  entryTime : ℚ
  strategy : StrategyKind
  checkScheduled : Bool
  timeoutId : Bool
deriving DecidableEq

/-- `FundingStabilityCheck` from `position-monitoring.interface.ts`.
`changePercent` is a JavaScript number, possibly non-finite. -/
structure FundingStabilityCheck where
  positionId : PositionId
  ticker : String
  exchange : String
  originalFundingRate : ℚ
  currentFundingRate : ℚ
  changePercent : JNum
  isStable : Bool
  checkTime : ℚ
  nextFundingTime : ℚ
  timeBeforeFunding : ℚ
deriving DecidableEq

/-- The mutable state of one `FundingMonitoringService` instance:
the `activeMonitoring` map (association list keyed by `id`), the
`stabilityChecks` history, and the set of pending `setTimeout` timers
(identified by the position id whose check they will run). -/
structure MonitoringState where
  activeMonitoring : List PositionMonitoring
  stabilityChecks : List FundingStabilityCheck
  scheduledTimers : List PositionId
deriving DecidableEq

/-- `Map.get` on the active-monitoring map. -/
def lookupActive (st : MonitoringState) (positionId : PositionId) :
    Option PositionMonitoring :=
  st.activeMonitoring.find? (fun p => decide (p.id = positionId))

/-- `Map.delete` on the active-monitoring map. -/
def deleteActive (st : MonitoringState) (positionId : PositionId) :
    MonitoringState :=
  { st with activeMonitoring :=
      st.activeMonitoring.filter (fun p => decide (p.id ≠ positionId)) }

/-- Removal of a pending timer (`clearTimeout`, or the timer firing). -/
def removeTimer (timers : List PositionId) (positionId : PositionId) :
    List PositionId :=
  timers.filter (fun q => decide (q ≠ positionId))

/-- `FundingMonitoringService.startPositionMonitoring`.  Computes
`checkTime = (nextFundingTime - now) - 1 minute`; when this is not positive
it only logs a warning and returns the id — no check is stored and no timer
is scheduled.  Otherwise the position is stored `Armed` (with a timer
handle) and a one-shot timer for its stability check is scheduled. -/
def startPositionMonitoring (st : MonitoringState)
    (ticker exchange : String) (originalFundingRate nextFundingTime : ℚ)
    (strategy : StrategyKind) (now : ℚ) : PositionId × MonitoringState :=
  let positionId : PositionId := ⟨ticker, exchange, now⟩
  let timeToFunding := nextFundingTime - now
  let checkTime := timeToFunding - 1 * 60 * 1000
  if checkTime ≤ 0 then (positionId, st)
  else
    let position : PositionMonitoring :=
      { id := positionId
        ticker := ticker
        exchange := exchange
        originalFundingRate := originalFundingRate
        nextFundingTime := nextFundingTime
        entryTime := now
        strategy := strategy
        checkScheduled := true
        timeoutId := true }
    (positionId,
      { st with
          activeMonitoring := position :: st.activeMonitoring
          scheduledTimers := positionId :: st.scheduledTimers })

/-- Body of `FundingMonitoringService.checkFundingStability`, run when a
timer fires.  `spreadsData` is the fresh snapshot returned by the external
provider; `now` is the wall-clock time of the callback.  An unknown
position id returns with no effect; a missing ticker or missing/null venue
rate removes the position without emitting a result; otherwise the
stability result is computed (with IEEE-754 semantics for the
`changePercent` division) and appended, and the position is removed. -/
def checkFundingStability (st : MonitoringState) (positionId : PositionId)
    (spreadsData : List SpreadData) (now : ℚ) : MonitoringState :=
  match lookupActive st positionId with
  | none => st
  | some position =>
    match spreadsData.find? (fun d => decide (d.ticker = position.ticker)) with
    | none => deleteActive st positionId
    | some tickerData =>
      match tickerData.quotes position.exchange with
      | none => deleteActive st positionId
      | some exchangeData =>
        match exchangeData.fundingRate with
        | none => deleteActive st positionId
        | some currentFundingRate =>
          let changePercent :=
            jmul100 (jdiv
              (mathAbs (currentFundingRate - position.originalFundingRate))
              (mathAbs position.originalFundingRate))
          let isStable := jle changePercent 10
          let timeBeforeFunding := (position.nextFundingTime - now) / 1000 / 60
          let stabilityCheck : FundingStabilityCheck :=
            { positionId := positionId
              ticker := position.ticker
              exchange := position.exchange
              originalFundingRate := position.originalFundingRate
              currentFundingRate := currentFundingRate
              changePercent := changePercent
              isStable := isStable
              checkTime := now
              nextFundingTime := position.nextFundingTime
              timeBeforeFunding := timeBeforeFunding }
          { activeMonitoring :=
              (deleteActive st positionId).activeMonitoring
            stabilityChecks := st.stabilityChecks ++ [stabilityCheck]
            scheduledTimers := st.scheduledTimers }

/-- The firing of a scheduled one-shot timer: possible only while the timer
is pending; it consumes the timer and runs `checkFundingStability`. -/
def fireTimer (st : MonitoringState) (positionId : PositionId)
    (spreadsData : List SpreadData) (now : ℚ) : MonitoringState :=
  if positionId ∈ st.scheduledTimers then
    checkFundingStability
      { st with scheduledTimers := removeTimer st.scheduledTimers positionId }
      positionId spreadsData now
  else st

/-- `FundingMonitoringService.cancelPositionMonitoring`: when the id is in
the active map and carries a timer handle, the timer is cleared and the
position removed; otherwise nothing happens. -/
def cancelPositionMonitoring (st : MonitoringState) (positionId : PositionId) :
    MonitoringState :=
  match lookupActive st positionId with
  | some position =>
    if position.timeoutId then
      { st with
          activeMonitoring :=
            st.activeMonitoring.filter (fun p => decide (p.id ≠ positionId))
          scheduledTimers := removeTimer st.scheduledTimers positionId }
    else st
  | none => st

/-- The spec's per-check lifecycle state, derived from the service state:
a check is `Armed` while its id is in the active map, `Fired` once a
stability result for it has been appended to the history, and `Expired`
otherwise. -/
inductive CheckState where
  | armed
  | fired
  | expired
deriving DecidableEq

/-- Derived lifecycle state of the check `positionId`. -/
def checkState (st : MonitoringState) (positionId : PositionId) : CheckState :=
  if (lookupActive st positionId).isSome then .armed
  else if st.stabilityChecks.any (fun c => decide (c.positionId = positionId)) then
    .fired
  else .expired

/-- `StrategySchedulerService.simulateTradeEntry` restricted to its
state-changing effects: both commission quotes are computed first (a throw
for an unregistered venue propagates, modelled as `none`); then for a
rate-arbitrage opportunity monitoring is started on both legs, each with
its own funding rate, and for a timing-arbitrage opportunity on the first
leg only (`longExchange`, the leg the matcher recorded first).  Both calls
use the opportunity's `nextFundingTime`. -/
def simulateTradeEntry (st : MonitoringState)
    (opportunity : StrategyOpportunity) (now : ℚ) : Option MonitoringState :=
  match calculateCommissions opportunity.longExchange opportunity.shortExchange
      POSITION_SIZE false,
    calculateCommissions opportunity.longExchange opportunity.shortExchange
      POSITION_SIZE true with
  | some _, some _ =>
    match opportunity.strategy with
    | .rateArbitrage =>
      let r1 := startPositionMonitoring st opportunity.ticker
        opportunity.longExchange opportunity.longFundingRate
        opportunity.nextFundingTime .rateArbitrage now
      let r2 := startPositionMonitoring r1.2 opportunity.ticker
        opportunity.shortExchange opportunity.shortFundingRate
        opportunity.nextFundingTime .rateArbitrage now
      some r2.2
    | .timingArbitrage =>
      let r1 := startPositionMonitoring st opportunity.ticker
        opportunity.longExchange opportunity.longFundingRate
        opportunity.nextFundingTime .timingArbitrage now
      some r1.2
  | _, _ => none

/-! ### Basic lemmas about the helper functions -/

/-- `mathAbs` agrees with Mathlib's absolute value. -/
theorem mathAbs_eq_abs (q : ℚ) : mathAbs q = |q| := by
  unfold mathAbs
  by_cases h : q < 0
  · rw [if_pos h, abs_of_neg h]
  · rw [if_neg h, abs_of_nonneg (not_lt.mp h)]

/-- `mathMin` agrees with Mathlib's `min`. -/
theorem mathMin_eq_min (a b : ℚ) : mathMin a b = min a b := by
  unfold mathMin
  by_cases h : a ≤ b
  · rw [if_pos h, min_eq_left h]
  · rw [if_neg h, min_eq_right (le_of_not_le h)]

/-- Every pair visited by the double loop relates its components by any
relation that holds pairwise on the list. -/
theorem allPairs_rel {α : Type} {R : α → α → Prop} :
    ∀ {l : List α}, l.Pairwise R → ∀ p ∈ allPairs l, R p.1 p.2 := by
  intro l
  induction l with
  | nil => intro _ p hp; simp [allPairs] at hp
  | cons x xs ih =>
    intro hpw p hp
    rw [List.pairwise_cons] at hpw
    rw [allPairs, List.mem_append] at hp
    rcases hp with hp | hp
    · obtain ⟨y, hy, rfl⟩ := List.mem_map.mp hp
      exact hpw.1 y hy
    · exact ih hpw.2 p hp

/-- The venues collected into `availableExchanges` carry pairwise distinct
venue names, because the scanned venue list has no duplicates and each
collected entry keeps the name it was collected under. -/
theorem availableExchanges_pairwise (tickerData : SpreadData) :
    (availableExchanges tickerData).Pairwise
      (fun a b => a.exchange ≠ b.exchange) := by
  have hscan : scannedExchanges.Pairwise (· ≠ ·) := by decide
  refine hscan.filterMap _ ?_
  intro a a' hne b hb b' hb'
  have hb1 : b.exchange = a := by
    cases hqa : tickerData.quotes a with
    | none => simp [hqa] at hb
    | some d =>
      cases hra : d.fundingRate with
      | none => simp [hqa, hra] at hb
      | some r =>
        simp only [hqa, hra] at hb
        by_cases ht : d.nextFundingTime ≠ 0
        · simp only [if_pos ht, Option.mem_def, Option.some.injEq] at hb
          rw [← hb]
        · simp [if_neg ht] at hb
  have hb2 : b'.exchange = a' := by
    cases hqa : tickerData.quotes a' with
    | none => simp [hqa] at hb'
    | some d =>
      cases hra : d.fundingRate with
      | none => simp [hqa, hra] at hb'
      | some r =>
        simp only [hqa, hra] at hb'
        by_cases ht : d.nextFundingTime ≠ 0
        · simp only [if_pos ht, Option.mem_def, Option.some.injEq] at hb'
          rw [← hb']
        · simp [if_neg ht] at hb'
  rw [hb1, hb2]
  exact hne

/-- The JavaScript `reduce` result is an element of the reduced list. -/
theorem pickBestOpportunity_mem :
    ∀ (rest : List StrategyOpportunity) (o : StrategyOpportunity),
      pickBestOpportunity o rest ∈ o :: rest := by
  intro rest
  induction rest with
  | nil => intro o; simp [pickBestOpportunity]
  | cons x xs ih =>
    intro o
    unfold pickBestOpportunity at ih ⊢
    simp only [List.foldl_cons]
    by_cases hc : x.fundingDiff > o.fundingDiff
    · rw [if_pos hc]
      exact List.mem_cons_of_mem o (ih x)
    · rw [if_neg hc]
      rcases List.mem_cons.mp (ih o) with h | h
      · rw [h]; exact List.mem_cons_self o _
      · exact List.mem_cons_of_mem o (List.mem_cons_of_mem x h)

/-- A best opportunity returned by Strategy 1 came from some visited pair
that passed all three filters. -/
theorem strategy1FindBestOpportunity_mem (now : ℚ) (tickerData : SpreadData)
    (cfg : Strategy1Config) (o : StrategyOpportunity)
    (h : strategy1FindBestOpportunity now tickerData cfg = some o) :
    ∃ p ∈ allPairs (availableExchanges tickerData),
      strategy1CheckPair cfg now tickerData.ticker p.1 p.2 = some o := by
  simp only [strategy1FindBestOpportunity] at h
  by_cases hl : (availableExchanges tickerData).length < 2
  · rw [if_pos hl] at h; exact absurd h (by simp)
  · rw [if_neg hl] at h
    cases hml : (allPairs (availableExchanges tickerData)).filterMap
        (fun p => strategy1CheckPair cfg now tickerData.ticker p.1 p.2) with
    | nil => rw [hml] at h; exact absurd h (by simp)
    | cons a rest =>
      rw [hml] at h
      have h2 : some (pickBestOpportunity a rest) = some o := h
      have ho : o ∈ a :: rest :=
        Option.some.inj h2 ▸ pickBestOpportunity_mem rest a
      rw [← hml] at ho
      obtain ⟨p, hp, hpo⟩ := List.mem_filterMap.mp ho
      exact ⟨p, hp, hpo⟩

/-- A best opportunity returned by Strategy 2 came from some visited pair
that passed all three filters. -/
theorem strategy2FindBestOpportunity_mem (now : ℚ) (tickerData : SpreadData)
    (cfg : Strategy2Config) (o : StrategyOpportunity)
    (h : strategy2FindBestOpportunity now tickerData cfg = some o) :
    ∃ p ∈ allPairs (availableExchanges tickerData),
      strategy2CheckPair cfg now tickerData.ticker p.1 p.2 = some o := by
  simp only [strategy2FindBestOpportunity] at h
  by_cases hl : (availableExchanges tickerData).length < 2
  · rw [if_pos hl] at h; exact absurd h (by simp)
  · rw [if_neg hl] at h
    cases hml : (allPairs (availableExchanges tickerData)).filterMap
        (fun p => strategy2CheckPair cfg now tickerData.ticker p.1 p.2) with
    | nil => rw [hml] at h; exact absurd h (by simp)
    | cons a rest =>
      rw [hml] at h
      have h2 : some (pickBestOpportunity a rest) = some o := h
      have ho : o ∈ a :: rest :=
        Option.some.inj h2 ▸ pickBestOpportunity_mem rest a
      rw [← hml] at ho
      obtain ⟨p, hp, hpo⟩ := List.mem_filterMap.mp ho
      exact ⟨p, hp, hpo⟩

/-- Everything a successful Strategy-1 pair check guarantees about the
produced opportunity: legs are the two visited venues (lower rate long),
recorded payout time is the earlier of the two, recorded lead time is the
minutes from `now` to that payout and lies in the configured window, the
payout skew passed the `maxTimeDiff` filter and the rate difference passed
the `minFundingDiff` filter. -/
theorem strategy1CheckPair_spec (cfg : Strategy1Config) (now : ℚ)
    (ticker : String) (e1 e2 : AvailableExchange) (o : StrategyOpportunity)
    (h : strategy1CheckPair cfg now ticker e1 e2 = some o) :
    ((o.longExchange = e1.exchange ∧ o.shortExchange = e2.exchange) ∨
      (o.longExchange = e2.exchange ∧ o.shortExchange = e1.exchange)) ∧
    o.nextFundingTime = min e1.nextFundingTime e2.nextFundingTime ∧
    o.timeToFunding = (o.nextFundingTime - now) / (1000 * 60) ∧
    cfg.minTimeToFunding ≤ o.timeToFunding ∧
    o.timeToFunding ≤ cfg.maxTimeToFunding ∧
    |e1.nextFundingTime - e2.nextFundingTime| / (1000 * 60) ≤ cfg.maxTimeDiff ∧
    cfg.minFundingDiff ≤ |e1.fundingRate - e2.fundingRate| ∧
    o.fundingDiff = |e1.fundingRate - e2.fundingRate| ∧
    o.strategy = .rateArbitrage := by
  have hmindiv :
      min ((e1.nextFundingTime - now) / (1000 * 60))
          ((e2.nextFundingTime - now) / (1000 * 60)) =
        (min e1.nextFundingTime e2.nextFundingTime - now) / (1000 * 60) := by
    rw [min_div_div_right (by norm_num : (0:ℚ) ≤ 1000 * 60),
      min_sub_sub_right]
  simp only [strategy1CheckPair, mathAbs_eq_abs, mathMin_eq_min] at h
  split_ifs at h with h1 h2 h3 hr
  · push_neg at h1 h2 h3
    obtain rfl := (Option.some.inj h).symm
    exact ⟨Or.inl ⟨rfl, rfl⟩, inf_eq_min .., by
        show _ ⊓ _ = _
        rw [inf_eq_min, inf_eq_min, hmindiv],
      h3.1, h3.2, h1, h2, rfl, rfl⟩
  · push_neg at h1 h2 h3
    obtain rfl := (Option.some.inj h).symm
    exact ⟨Or.inr ⟨rfl, rfl⟩, inf_eq_min .., by
        show _ ⊓ _ = _
        rw [inf_eq_min, inf_eq_min, hmindiv],
      h3.1, h3.2, h1, h2, rfl, rfl⟩

/-- Everything a successful Strategy-2 pair check guarantees: the leg with
the strictly earlier payout is recorded first (as `longExchange`, with its
own rate and payout time; on equal payout times the second visited venue is
recorded first), the payout skew passed the `minTimeDiff` filter, both legs
passed the absolute-rate filter, the lead time lies in the window, and the
divergence metric is the sum of the absolute rates. -/
theorem strategy2CheckPair_spec (cfg : Strategy2Config) (now : ℚ)
    (ticker : String) (e1 e2 : AvailableExchange) (o : StrategyOpportunity)
    (h : strategy2CheckPair cfg now ticker e1 e2 = some o) :
    ((o.longExchange = e1.exchange ∧ o.shortExchange = e2.exchange ∧
        o.longFundingRate = e1.fundingRate ∧
        o.nextFundingTime = e1.nextFundingTime ∧
        e1.nextFundingTime < e2.nextFundingTime) ∨
      (o.longExchange = e2.exchange ∧ o.shortExchange = e1.exchange ∧
        o.longFundingRate = e2.fundingRate ∧
        o.nextFundingTime = e2.nextFundingTime ∧
        e2.nextFundingTime ≤ e1.nextFundingTime)) ∧
    cfg.minTimeDiff ≤ |e1.nextFundingTime - e2.nextFundingTime| / (1000 * 60) ∧
    cfg.minAbsFundingRate ≤ |e1.fundingRate| ∧
    cfg.minAbsFundingRate ≤ |e2.fundingRate| ∧
    cfg.minTimeToFunding ≤ o.timeToFunding ∧
    o.timeToFunding ≤ cfg.maxTimeToFunding ∧
    o.fundingDiff = |e1.fundingRate| + |e2.fundingRate| ∧
    o.strategy = .timingArbitrage := by
  simp only [strategy2CheckPair, mathAbs_eq_abs, mathMin_eq_min] at h
  split_ifs at h with h1 h2 h3 ht
  · push_neg at h1 h2 h3
    obtain rfl := (Option.some.inj h).symm
    exact ⟨Or.inl ⟨rfl, rfl, rfl, rfl, ht⟩, h1, h2.1, h2.2, h3.1, h3.2, rfl, rfl⟩
  · push_neg at h1 h2 h3
    obtain rfl := (Option.some.inj h).symm
    exact ⟨Or.inr ⟨rfl, rfl, rfl, rfl, le_of_not_lt ht⟩,
      h1, h2.1, h2.2, h3.1, h3.2, rfl, rfl⟩

/-! ### Concrete example data -/

/-- The spec's end-to-end example snapshot: ticker `XUSDT`, venue P
(`binance`) at rate −0.0040 paying out 10 minutes from `now = 0`, venue Q
(`bybit`) at rate +0.0010 paying out 11 minutes from `now = 0`. -/
def snapXUSDT : SpreadData :=
  { ticker := "XUSDT"
    quotes := fun ex =>
      if ex = "binance" then some ⟨some (-0.0040), 600000⟩
      else if ex = "bybit" then some ⟨some 0.0010, 660000⟩
      else none }

/-- The example configuration: `maxTimeDiff = 5`, `minFundingDiff = 0.0015`,
other thresholds at their defaults. -/
def configXUSDT : Strategy1Config :=
  { minFundingDiff := 0.0015
    maxTimeDiff := 5
    minTimeToFunding := 3
    maxTimeToFunding := 15 }

/-- The opportunity Strategy 1 produces on `snapXUSDT`. -/
def oppXUSDT : StrategyOpportunity :=
  { ticker := "XUSDT"
    longExchange := "binance"
    shortExchange := "bybit"
    longFundingRate := -0.0040
    shortFundingRate := 0.0010
    fundingDiff := 0.0050
    nextFundingTime := 600000
    timeToFunding := 10
    strategy := .rateArbitrage }

/-- Evaluation of the Strategy-1 pair check on the example pair. -/
theorem checkPair_snapXUSDT :
    strategy1CheckPair configXUSDT 0 "XUSDT"
      ⟨"binance", -0.0040, 600000⟩ ⟨"bybit", 0.0010, 660000⟩ =
    some oppXUSDT := by
  norm_num [strategy1CheckPair, mathAbs, mathMin, configXUSDT, oppXUSDT]

/-- Evaluation of the Strategy-1 matcher on the example snapshot. -/
theorem findBest_snapXUSDT :
    strategy1FindBestOpportunity 0 snapXUSDT configXUSDT = some oppXUSDT := by
  have h1 : availableExchanges snapXUSDT =
      [⟨"binance", -0.0040, 600000⟩, ⟨"bybit", 0.0010, 660000⟩] := by
    simp [availableExchanges, scannedExchanges, snapXUSDT]
  rw [strategy1FindBestOpportunity, h1]
  simp only [show snapXUSDT.ticker = "XUSDT" from rfl, allPairs, List.map_cons,
    List.map_nil, List.append_nil, List.filterMap_cons, List.filterMap_nil,
    checkPair_snapXUSDT, pickBestOpportunity, List.foldl_nil, List.length_cons]
  norm_num

/-! ### Claim theorems -/

/-- C9: on the snapshot with ticker XUSDT, venue P = binance at rate
−0.0040 paying out in 10 minutes and venue Q = bybit at rate +0.0010
paying out in 11 minutes, with `maxTimeDiff = 5` and
`minFundingDiff = 0.0015` and the other thresholds at defaults, the
rate-arbitrage matcher returns exactly the opportunity with long leg P,
short leg Q and `fundingDiff = 0.0050`. -/
theorem strategy1_xusdt_example :
    strategy1FindBestOpportunity 0 snapXUSDT configXUSDT = some oppXUSDT :=
  findBest_snapXUSDT

/-- C2: an opportunity returned by the rate-arbitrage matcher never has the
same venue on both legs, and its minutes-to-earliest-payout (the recorded
earliest payout time minus `now`, in minutes) always lies in the closed
interval `[minTimeToFunding, maxTimeToFunding]`. -/
theorem strategy1_no_degenerate_opportunity (now : ℚ) (tickerData : SpreadData)
    (cfg : Strategy1Config) (o : StrategyOpportunity)
    (h : strategy1FindBestOpportunity now tickerData cfg = some o) :
    o.longExchange ≠ o.shortExchange ∧
    cfg.minTimeToFunding ≤ (o.nextFundingTime - now) / (1000 * 60) ∧
    (o.nextFundingTime - now) / (1000 * 60) ≤ cfg.maxTimeToFunding := by
  obtain ⟨p, hp, hcp⟩ := strategy1FindBestOpportunity_mem now tickerData cfg o h
  have hne : p.1.exchange ≠ p.2.exchange :=
    allPairs_rel (availableExchanges_pairwise tickerData) p hp
  obtain ⟨hlegs, hnft, httf, hmin, hmax, -⟩ :=
    strategy1CheckPair_spec cfg now tickerData.ticker p.1 p.2 o hcp
  refine ⟨?_, ?_, ?_⟩
  · rcases hlegs with ⟨hl, hs⟩ | ⟨hl, hs⟩
    · rw [hl, hs]; exact hne
    · rw [hl, hs]; exact hne.symm
  · rw [← httf]; exact hmin
  · rw [← httf]; exact hmax

/-- Closed instantiation of `strategy1_no_degenerate_opportunity` on the
XUSDT example snapshot. -/
theorem strategy1_no_degenerate_opportunity_witness :
    oppXUSDT.longExchange ≠ oppXUSDT.shortExchange ∧
    configXUSDT.minTimeToFunding ≤ (oppXUSDT.nextFundingTime - 0) / (1000 * 60) ∧
    (oppXUSDT.nextFundingTime - 0) / (1000 * 60) ≤ configXUSDT.maxTimeToFunding :=
  strategy1_no_degenerate_opportunity 0 snapXUSDT configXUSDT oppXUSDT
    findBest_snapXUSDT

/-- A concrete timing-arbitrage opportunity: binance at rate +0.002 paying
out in 5 minutes, bybit at rate −0.002 paying out in 36 minutes. -/
def oppTiming : StrategyOpportunity :=
  { ticker := "TUSDT"
    longExchange := "binance"
    shortExchange := "bybit"
    longFundingRate := 0.002
    shortFundingRate := -0.002
    fundingDiff := 0.004
    nextFundingTime := 300000
    timeToFunding := 5
    strategy := .timingArbitrage }

/-- Evaluation of the Strategy-2 pair check on the concrete timing pair. -/
theorem checkPair_oppTiming :
    strategy2CheckPair defaultStrategy2Config 0 "TUSDT"
      ⟨"binance", 0.002, 300000⟩ ⟨"bybit", -0.002, 2160000⟩ =
    some oppTiming := by
  norm_num [strategy2CheckPair, mathAbs, mathMin, defaultStrategy2Config,
    oppTiming]

/-- C5: the timing-arbitrage pair check accepts a pair only when the payout
skew in minutes is at least `minTimeDiff`; the rate-arbitrage pair check
accepts the same pair only when that skew is at most `maxTimeDiff`; hence
whenever `maxTimeDiff < minTimeDiff`, a pair accepted by the rate-arbitrage
check is rejected by the timing-arbitrage check. -/
theorem strategy_skew_windows_disjoint :
    (∀ (cfg1 : Strategy1Config) (now : ℚ) (tk : String)
        (e1 e2 : AvailableExchange) (o : StrategyOpportunity),
        strategy1CheckPair cfg1 now tk e1 e2 = some o →
        mathAbs (e1.nextFundingTime - e2.nextFundingTime) / (1000 * 60) ≤
          cfg1.maxTimeDiff) ∧
    (∀ (cfg2 : Strategy2Config) (now : ℚ) (tk : String)
        (e1 e2 : AvailableExchange) (o : StrategyOpportunity),
        strategy2CheckPair cfg2 now tk e1 e2 = some o →
        cfg2.minTimeDiff ≤
          mathAbs (e1.nextFundingTime - e2.nextFundingTime) / (1000 * 60)) ∧
    (∀ (cfg1 : Strategy1Config) (cfg2 : Strategy2Config) (now : ℚ)
        (tk1 tk2 : String) (e1 e2 : AvailableExchange) (o : StrategyOpportunity),
        cfg1.maxTimeDiff < cfg2.minTimeDiff →
        strategy1CheckPair cfg1 now tk1 e1 e2 = some o →
        strategy2CheckPair cfg2 now tk2 e1 e2 = none) := by
  have hA : ∀ (cfg1 : Strategy1Config) (now : ℚ) (tk : String)
      (e1 e2 : AvailableExchange) (o : StrategyOpportunity),
      strategy1CheckPair cfg1 now tk e1 e2 = some o →
      mathAbs (e1.nextFundingTime - e2.nextFundingTime) / (1000 * 60) ≤
        cfg1.maxTimeDiff := by
    intro cfg1 now tk e1 e2 o h
    rw [mathAbs_eq_abs]
    exact (strategy1CheckPair_spec cfg1 now tk e1 e2 o h).2.2.2.2.2.1
  refine ⟨hA, ?_, ?_⟩
  · intro cfg2 now tk e1 e2 o h
    rw [mathAbs_eq_abs]
    exact (strategy2CheckPair_spec cfg2 now tk e1 e2 o h).2.1
  · intro cfg1 cfg2 now tk1 tk2 e1 e2 o hlt h1
    have hle := hA cfg1 now tk1 e1 e2 o h1
    have hcond : mathAbs (e1.nextFundingTime - e2.nextFundingTime) /
        (1000 * 60) < cfg2.minTimeDiff := lt_of_le_of_lt hle hlt
    simp only [strategy2CheckPair]
    rw [if_pos hcond]

/-- Closed instantiation of `strategy_skew_windows_disjoint`: the XUSDT
example pair (skew 1 minute) is within Strategy 1's window, the concrete
timing pair (skew 31 minutes) is within Strategy 2's window, and with the
default thresholds (5 < 30) the XUSDT pair is rejected by Strategy 2. -/
theorem strategy_skew_windows_disjoint_witness :
    mathAbs ((600000 : ℚ) - 660000) / (1000 * 60) ≤ configXUSDT.maxTimeDiff ∧
    defaultStrategy2Config.minTimeDiff ≤
      mathAbs ((300000 : ℚ) - 2160000) / (1000 * 60) ∧
    strategy2CheckPair defaultStrategy2Config 0 "XUSDT"
      ⟨"binance", -0.0040, 600000⟩ ⟨"bybit", 0.0010, 660000⟩ = none :=
  ⟨strategy_skew_windows_disjoint.1 configXUSDT 0 "XUSDT"
      ⟨"binance", -0.0040, 600000⟩ ⟨"bybit", 0.0010, 660000⟩ oppXUSDT
      checkPair_snapXUSDT,
    strategy_skew_windows_disjoint.2.1 defaultStrategy2Config 0 "TUSDT"
      ⟨"binance", 0.002, 300000⟩ ⟨"bybit", -0.002, 2160000⟩ oppTiming
      checkPair_oppTiming,
    strategy_skew_windows_disjoint.2.2 configXUSDT defaultStrategy2Config 0
      "XUSDT" "XUSDT" ⟨"binance", -0.0040, 600000⟩ ⟨"bybit", 0.0010, 660000⟩
      oppXUSDT (by norm_num [configXUSDT, defaultStrategy2Config])
      checkPair_snapXUSDT⟩

/-- C6: for a registered venue pair whose maker rates do not exceed their
taker rates and a non-negative notional, the all-market commission total is
at least the limit-entry/market-exit commission total. -/
theorem allMarket_total_ge_limitMarket_total (longEx shortEx : String)
    (size : ℚ) (lf sf : ExchangeFees) (m l : TradeCommission)
    (hlf : EXCHANGE_FEES longEx = some lf)
    (hsf : EXCHANGE_FEES shortEx = some sf)
    (hlm : lf.maker ≤ lf.taker) (hsm : sf.maker ≤ sf.taker)
    (hsize : 0 ≤ size)
    (hm : calculateCommissions longEx shortEx size false = some m)
    (hl : calculateCommissions longEx shortEx size true = some l) :
    l.totalCommission ≤ m.totalCommission := by
  simp only [calculateCommissions, hlf, hsf, Bool.false_eq_true, if_false,
    if_true, Option.some.injEq] at hm hl
  rw [← hm, ← hl]
  have h1 : size * lf.maker ≤ size * lf.taker :=
    mul_le_mul_of_nonneg_left hlm hsize
  have h2 : size * sf.maker ≤ size * sf.taker :=
    mul_le_mul_of_nonneg_left hsm hsize
  simp only []
  linarith

/-- Evaluation of the all-market commission quote for binance/bybit at
notional 1000. -/
theorem calcComm_binance_bybit_market :
    calculateCommissions "binance" "bybit" 1000 false =
      some ⟨0.4, 0.55, 0.4, 0.55, 1.9, .allMarket⟩ := by
  simp only [calculateCommissions,
    show EXCHANGE_FEES "binance" = some ⟨0.0002, 0.0004⟩ from rfl,
    show EXCHANGE_FEES "bybit" = some ⟨0.0002, 0.00055⟩ from rfl,
    Option.some.injEq]
  norm_num

/-- Evaluation of the limit-entry/market-exit commission quote for
binance/bybit at notional 1000. -/
theorem calcComm_binance_bybit_limit :
    calculateCommissions "binance" "bybit" 1000 true =
      some ⟨0.2, 0.2, 0.4, 0.55, 1.35, .limitMarket⟩ := by
  simp only [calculateCommissions,
    show EXCHANGE_FEES "binance" = some ⟨0.0002, 0.0004⟩ from rfl,
    show EXCHANGE_FEES "bybit" = some ⟨0.0002, 0.00055⟩ from rfl,
    Option.some.injEq]
  norm_num

/-- Closed instantiation of `allMarket_total_ge_limitMarket_total` for the
binance/bybit pair at notional 1000: limit-entry total 1.35 versus
all-market total 1.9. -/
theorem allMarket_total_ge_limitMarket_total_witness :
    (⟨0.2, 0.2, 0.4, 0.55, 1.35, .limitMarket⟩ :
        TradeCommission).totalCommission ≤
      (⟨0.4, 0.55, 0.4, 0.55, 1.9, .allMarket⟩ :
        TradeCommission).totalCommission :=
  allMarket_total_ge_limitMarket_total "binance" "bybit" 1000
    ⟨0.0002, 0.0004⟩ ⟨0.0002, 0.00055⟩ _ _ rfl rfl
    (by norm_num) (by norm_num) (by norm_num)
    calcComm_binance_bybit_market calcComm_binance_bybit_limit

/-- A snapshot on which the rate-arbitrage matcher produces an opportunity
with `mexc` as one leg: binance at rate 0 and mexc at rate +0.01, both
paying out 10 minutes from `now = 0`. -/
def snapMexc : SpreadData :=
  { ticker := "MUSDT"
    quotes := fun ex =>
      if ex = "binance" then some ⟨some 0, 600000⟩
      else if ex = "mexc" then some ⟨some 0.01, 600000⟩
      else none }

/-- The opportunity Strategy 1 produces on `snapMexc` (short leg mexc). -/
def oppMexc : StrategyOpportunity :=
  { ticker := "MUSDT"
    longExchange := "binance"
    shortExchange := "mexc"
    longFundingRate := 0
    shortFundingRate := 0.01
    fundingDiff := 0.01
    nextFundingTime := 600000
    timeToFunding := 10
    strategy := .rateArbitrage }

/-- Evaluation of the Strategy-1 pair check on the mexc pair. -/
theorem checkPair_snapMexc :
    strategy1CheckPair defaultStrategy1Config 0 "MUSDT"
      ⟨"binance", 0, 600000⟩ ⟨"mexc", 0.01, 600000⟩ =
    some oppMexc := by
  norm_num [strategy1CheckPair, mathAbs, mathMin, defaultStrategy1Config,
    oppMexc]

/-- Evaluation of the Strategy-1 matcher on `snapMexc`. -/
theorem findBest_snapMexc :
    strategy1FindBestOpportunity 0 snapMexc defaultStrategy1Config =
      some oppMexc := by
  have h1 : availableExchanges snapMexc =
      [⟨"binance", 0, 600000⟩, ⟨"mexc", 0.01, 600000⟩] := by
    simp [availableExchanges, scannedExchanges, snapMexc]
  rw [strategy1FindBestOpportunity, h1]
  simp only [show snapMexc.ticker = "MUSDT" from rfl, allPairs, List.map_cons,
    List.map_nil, List.append_nil, List.filterMap_cons, List.filterMap_nil,
    checkPair_snapMexc, pickBestOpportunity, List.foldl_nil, List.length_cons]
  norm_num

/-- C3: the fee registry omits `mexc` although both matchers scan it: every
commission quote with `mexc` on either side throws (is `none`), hence the
allocator's net-profit computation throws for every opportunity with a
`mexc` leg, and such opportunities are actually produced — on `snapMexc`
the matcher returns an opportunity whose short leg is `mexc`. -/
theorem mexc_commission_throws :
    "mexc" ∈ scannedExchanges ∧
    EXCHANGE_FEES "mexc" = none ∧
    (∀ (other : String) (size : ℚ) (useLimit : Bool),
        calculateCommissions "mexc" other size useLimit = none ∧
        calculateCommissions other "mexc" size useLimit = none) ∧
    (∀ o : StrategyOpportunity,
        o.longExchange = "mexc" ∨ o.shortExchange = "mexc" →
        calculateNetProfit o = none) ∧
    strategy1FindBestOpportunity 0 snapMexc defaultStrategy1Config =
      some oppMexc ∧
    oppMexc.shortExchange = "mexc" ∧
    calculateNetProfit oppMexc = none := by
  have hfees : EXCHANGE_FEES "mexc" = none := rfl
  have hcomm : ∀ (other : String) (size : ℚ) (useLimit : Bool),
      calculateCommissions "mexc" other size useLimit = none ∧
      calculateCommissions other "mexc" size useLimit = none := by
    intro other size useLimit
    constructor
    · simp only [calculateCommissions, hfees]
    · simp only [calculateCommissions, hfees]
      cases EXCHANGE_FEES other <;> rfl
  have hnet : ∀ o : StrategyOpportunity,
      o.longExchange = "mexc" ∨ o.shortExchange = "mexc" →
      calculateNetProfit o = none := by
    intro o ho
    rcases ho with ho | ho
    · simp only [calculateNetProfit, ho, (hcomm _ _ _).1]
    · simp only [calculateNetProfit, ho, (hcomm _ _ _).2]
  exact ⟨by decide, hfees, hcomm, hnet, findBest_snapMexc, rfl,
    hnet oppMexc (Or.inr rfl)⟩

/-- Closed instantiation of `mexc_commission_throws`: the net-profit
computation on the concrete mexc opportunity throws. -/
theorem mexc_commission_throws_witness : calculateNetProfit oppMexc = none :=
  mexc_commission_throws.2.2.2.1 oppMexc (Or.inr rfl)

/-- The commission choice in `calculateNetProfit` (strictly-lower wins,
ties keep the all-market quote) picks exactly the minimum of the two
totals. -/
theorem bestCommission_total_eq_min (m l : TradeCommission) :
    (if l.totalCommission < m.totalCommission then l else m).totalCommission =
      min m.totalCommission l.totalCommission := by
  by_cases hc : l.totalCommission < m.totalCommission
  · rw [if_pos hc, min_eq_right (le_of_lt hc)]
  · rw [if_neg hc, min_eq_left (le_of_not_lt hc)]

/-- Unfolding of `calculateNetProfit` when both commission quotes succeed:
the net profit is the gross profit minus the lower of the two totals. -/
theorem calculateNetProfit_eq (o : StrategyOpportunity)
    (m l : TradeCommission)
    (hm : calculateCommissions o.longExchange o.shortExchange
      POSITION_SIZE false = some m)
    (hl : calculateCommissions o.longExchange o.shortExchange
      POSITION_SIZE true = some l) :
    calculateNetProfit o = some
      { opportunity := o
        grossProfit := o.fundingDiff * POSITION_SIZE
        totalCommissions := min m.totalCommission l.totalCommission
        netProfit := o.fundingDiff * POSITION_SIZE -
          min m.totalCommission l.totalCommission
        commissionType :=
          (if l.totalCommission < m.totalCommission then l else m).commissionType } := by
  simp only [calculateNetProfit, hm, hl, bestCommission_total_eq_min]

/-- C1: when both matchers produced a candidate and the two candidates
share a ticker, the allocator computes each candidate's net profit as
`fundingDiff × 1000` minus the lower of the two commission totals for that
candidate's venue pair, selects the candidate with the higher net profit,
and on an exact tie selects the strategy-1 candidate. -/
theorem allocator_same_ticker_selection (o1 o2 : StrategyOpportunity)
    (t1 t2 : List StrategyOpportunity) (m1 l1 m2 l2 : TradeCommission)
    (htick : o1.ticker = o2.ticker)
    (hm1 : calculateCommissions o1.longExchange o1.shortExchange
      POSITION_SIZE false = some m1)
    (hl1 : calculateCommissions o1.longExchange o1.shortExchange
      POSITION_SIZE true = some l1)
    (hm2 : calculateCommissions o2.longExchange o2.shortExchange
      POSITION_SIZE false = some m2)
    (hl2 : calculateCommissions o2.longExchange o2.shortExchange
      POSITION_SIZE true = some l2) :
    ∃ d, allocateStrategy (o1 :: t1) (o2 :: t2) = some d ∧
      ((o2.fundingDiff * 1000 - min m2.totalCommission l2.totalCommission ≤
          o1.fundingDiff * 1000 - min m1.totalCommission l1.totalCommission →
        d.action = .enterStrategy1 ∧ d.selectedOpportunities = [o1] ∧
        d.netProfit = o1.fundingDiff * 1000 -
          min m1.totalCommission l1.totalCommission) ∧
       (o1.fundingDiff * 1000 - min m1.totalCommission l1.totalCommission <
          o2.fundingDiff * 1000 - min m2.totalCommission l2.totalCommission →
        d.action = .enterStrategy2 ∧ d.selectedOpportunities = [o2] ∧
        d.netProfit = o2.fundingDiff * 1000 -
          min m2.totalCommission l2.totalCommission)) := by
  have hb1 := calculateNetProfit_eq o1 m1 l1 hm1 hl1
  have hb2 := calculateNetProfit_eq o2 m2 l2 hm2 hl2
  have hPS : POSITION_SIZE = (1000 : ℚ) := rfl
  have hticker : ¬(o1.ticker ≠ o2.ticker) := not_ne_iff.mpr htick
  by_cases hcmp :
      o1.fundingDiff * POSITION_SIZE - min m1.totalCommission l1.totalCommission ≥
        o2.fundingDiff * POSITION_SIZE - min m2.totalCommission l2.totalCommission
  · have halloc : allocateStrategy (o1 :: t1) (o2 :: t2) =
        some (enterStrategy1Decision
          { opportunity := o1
            grossProfit := o1.fundingDiff * POSITION_SIZE
            totalCommissions := min m1.totalCommission l1.totalCommission
            netProfit := o1.fundingDiff * POSITION_SIZE -
              min m1.totalCommission l1.totalCommission
            commissionType :=
              (if l1.totalCommission < m1.totalCommission then l1
                else m1).commissionType }) := by
      simp only [allocateStrategy, hb1, hb2]
      rw [if_neg hticker, if_pos hcmp]
    rw [hPS] at hcmp
    exact ⟨_, halloc, fun _ => ⟨rfl, rfl, rfl⟩,
      fun hlt => absurd hcmp (not_le.mpr hlt)⟩
  · have halloc : allocateStrategy (o1 :: t1) (o2 :: t2) =
        some (enterStrategy2Decision
          { opportunity := o2
            grossProfit := o2.fundingDiff * POSITION_SIZE
            totalCommissions := min m2.totalCommission l2.totalCommission
            netProfit := o2.fundingDiff * POSITION_SIZE -
              min m2.totalCommission l2.totalCommission
            commissionType :=
              (if l2.totalCommission < m2.totalCommission then l2
                else m2).commissionType }) := by
      simp only [allocateStrategy, hb1, hb2]
      rw [if_neg hticker, if_neg hcmp]
    rw [hPS] at hcmp
    exact ⟨_, halloc, fun hle => absurd hle hcmp,
      fun _ => ⟨rfl, rfl, rfl⟩⟩

/-- A timing-arbitrage candidate on the same ticker and venue pair as
`oppXUSDT`, used to exercise the allocator's same-ticker comparison. -/
def oppXUSDTTiming : StrategyOpportunity :=
  { ticker := "XUSDT"
    longExchange := "binance"
    shortExchange := "bybit"
    longFundingRate := 0.002
    shortFundingRate := -0.002
    fundingDiff := 0.004
    nextFundingTime := 300000
    timeToFunding := 5
    strategy := .timingArbitrage }

/-- Closed instantiation of `allocator_same_ticker_selection`: with net
profits 3.65 (strategy 1) versus 2.65 (strategy 2) on ticker XUSDT, the
allocator enters strategy 1. -/
theorem allocator_same_ticker_selection_witness :
    (allocateStrategy [oppXUSDT] [oppXUSDTTiming]).map
        (fun d => (d.action, d.selectedOpportunities)) =
      some (.enterStrategy1, [oppXUSDT]) := by
  obtain ⟨d, hd, h1, h2⟩ := allocator_same_ticker_selection oppXUSDT
    oppXUSDTTiming [] []
    ⟨0.4, 0.55, 0.4, 0.55, 1.9, .allMarket⟩
    ⟨0.2, 0.2, 0.4, 0.55, 1.35, .limitMarket⟩
    ⟨0.4, 0.55, 0.4, 0.55, 1.9, .allMarket⟩
    ⟨0.2, 0.2, 0.4, 0.55, 1.35, .limitMarket⟩
    rfl calcComm_binance_bybit_market calcComm_binance_bybit_limit
    calcComm_binance_bybit_market calcComm_binance_bybit_limit
  obtain ⟨ha, hsel, -⟩ := h1 (by norm_num [oppXUSDT, oppXUSDTTiming, min_def])
  rw [hd]
  simp [ha, hsel]

/-- The empty monitoring-service state. -/
def emptyMonitoringState : MonitoringState :=
  { activeMonitoring := [], stabilityChecks := [], scheduledTimers := [] }

/-- C4: arming a check whose fire time (payout minus one minute) is already
in the past returns the check id to the caller but leaves the service state
untouched: no check is stored, no timer is scheduled, the derived lifecycle
state of the id is `Expired` (given a fresh id), and no later timer event
for that id can ever produce a stability result. -/
theorem arm_past_fireAt_is_expired (st : MonitoringState)
    (ticker exchange : String) (rate nft now : ℚ) (strategy : StrategyKind)
    (hpast : nft - 1 * 60 * 1000 < now)
    (hactive : lookupActive st ⟨ticker, exchange, now⟩ = none)
    (hhist : st.stabilityChecks.any
      (fun c => decide (c.positionId = ⟨ticker, exchange, now⟩)) = false)
    (htimer : (⟨ticker, exchange, now⟩ : PositionId) ∉ st.scheduledTimers) :
    (startPositionMonitoring st ticker exchange rate nft strategy now).1 =
      ⟨ticker, exchange, now⟩ ∧
    (startPositionMonitoring st ticker exchange rate nft strategy now).2 = st ∧
    checkState st ⟨ticker, exchange, now⟩ = .expired ∧
    ∀ (data : List SpreadData) (now2 : ℚ),
      fireTimer st ⟨ticker, exchange, now⟩ data now2 = st := by
  have hct : nft - now - 1 * 60 * 1000 ≤ 0 := by linarith
  have hstart : startPositionMonitoring st ticker exchange rate nft strategy
      now = (⟨ticker, exchange, now⟩, st) := by
    simp only [startPositionMonitoring]
    rw [if_pos hct]
  refine ⟨by rw [hstart], by rw [hstart], ?_, ?_⟩
  · simp only [checkState, hactive, Option.isSome_none, Bool.false_eq_true,
      if_false, hhist]
  · intro data now2
    simp only [fireTimer, htimer, if_false]

/-- Closed instantiation of `arm_past_fireAt_is_expired`: arming on the
empty state with payout at time 0 and `now` ten minutes later. -/
theorem arm_past_fireAt_is_expired_witness :
    (startPositionMonitoring emptyMonitoringState "XUSDT" "binance" 0.001 0
        .rateArbitrage 600000).1 = ⟨"XUSDT", "binance", 600000⟩ ∧
    (startPositionMonitoring emptyMonitoringState "XUSDT" "binance" 0.001 0
        .rateArbitrage 600000).2 = emptyMonitoringState ∧
    checkState emptyMonitoringState ⟨"XUSDT", "binance", 600000⟩ = .expired ∧
    fireTimer emptyMonitoringState ⟨"XUSDT", "binance", 600000⟩ [] 660000 =
      emptyMonitoringState := by
  have h := arm_past_fireAt_is_expired emptyMonitoringState "XUSDT" "binance"
    0.001 0 600000 .rateArbitrage (by norm_num) rfl rfl
    (by simp [emptyMonitoringState])
  exact ⟨h.1, h.2.1, h.2.2.1, h.2.2.2 [] 660000⟩

/-- C8: a check armed (with a positive lead) and then cancelled before its
timer fires leaves the service state exactly as before arming: its derived
lifecycle state is `Expired`, the stability history is unchanged, and no
later timer event for it can append a stability result; cancelling an id
that is not armed (already fired, already expired, or unknown) is a
no-op. -/
theorem cancel_before_fire_no_result (st : MonitoringState)
    (ticker exchange : String) (rate nft now : ℚ) (strategy : StrategyKind)
    (harm : 0 < nft - now - 1 * 60 * 1000)
    (hactive : lookupActive st ⟨ticker, exchange, now⟩ = none)
    (hhist : st.stabilityChecks.any
      (fun c => decide (c.positionId = ⟨ticker, exchange, now⟩)) = false)
    (htimer : (⟨ticker, exchange, now⟩ : PositionId) ∉ st.scheduledTimers) :
    cancelPositionMonitoring
        (startPositionMonitoring st ticker exchange rate nft strategy now).2
        ⟨ticker, exchange, now⟩ = st ∧
    checkState st ⟨ticker, exchange, now⟩ = .expired ∧
    (∀ (data : List SpreadData) (now2 : ℚ),
      fireTimer st ⟨ticker, exchange, now⟩ data now2 = st) ∧
    (∀ (st' : MonitoringState) (pid' : PositionId),
      checkState st' pid' ≠ .armed → cancelPositionMonitoring st' pid' = st') := by
  have hnoop : ∀ (st' : MonitoringState) (pid' : PositionId),
      checkState st' pid' ≠ .armed → cancelPositionMonitoring st' pid' = st' := by
    intro st' pid' hne
    cases hl : lookupActive st' pid' with
    | none => simp only [cancelPositionMonitoring, hl]
    | some p =>
      exfalso
      exact hne (by simp [checkState, hl])
  have hfilterA : st.activeMonitoring.filter
      (fun p => decide (p.id ≠ (⟨ticker, exchange, now⟩ : PositionId))) =
      st.activeMonitoring := by
    rw [List.filter_eq_self]
    intro a ha
    have hne := List.find?_eq_none.mp hactive a ha
    simp only [decide_eq_true_eq] at hne ⊢
    exact hne
  have hfilterT : removeTimer st.scheduledTimers ⟨ticker, exchange, now⟩ =
      st.scheduledTimers := by
    rw [removeTimer, List.filter_eq_self]
    intro q hq
    simp only [decide_eq_true_eq]
    intro h
    exact htimer (h ▸ hq)
  have hstart : startPositionMonitoring st ticker exchange rate nft strategy
      now =
      (⟨ticker, exchange, now⟩,
        { st with
            activeMonitoring :=
              ⟨⟨ticker, exchange, now⟩, ticker, exchange, rate, nft, now,
                strategy, true, true⟩ :: st.activeMonitoring
            scheduledTimers :=
              ⟨ticker, exchange, now⟩ :: st.scheduledTimers }) := by
    simp only [startPositionMonitoring]
    rw [if_neg (not_le.mpr harm)]
  refine ⟨?_, ?_, ?_, hnoop⟩
  · rw [hstart]
    simp only [cancelPositionMonitoring, lookupActive]
    rw [List.find?_cons_of_pos _ (by simp)]
    simp only [if_true]
    rw [List.filter_cons_of_neg (by simp), hfilterA]
    have hrt : removeTimer
        ((⟨ticker, exchange, now⟩ : PositionId) :: st.scheduledTimers)
        ⟨ticker, exchange, now⟩ = st.scheduledTimers := by
      rw [removeTimer, List.filter_cons_of_neg (by simp)]
      exact hfilterT
    rw [hrt]
  · simp only [checkState, hactive, Option.isSome_none, Bool.false_eq_true,
      if_false, hhist]
  · intro data now2
    simp only [fireTimer, htimer, if_false]

/-- Closed instantiation of `cancel_before_fire_no_result`: arm on the
empty state with payout in 10 minutes, cancel immediately, observe no
stability result and an `Expired` lifecycle state; cancelling an unknown
id is a no-op. -/
theorem cancel_before_fire_no_result_witness :
    cancelPositionMonitoring
        (startPositionMonitoring emptyMonitoringState "XUSDT" "binance" 0.001
          600000 .rateArbitrage 0).2 ⟨"XUSDT", "binance", 0⟩ =
      emptyMonitoringState ∧
    checkState emptyMonitoringState ⟨"XUSDT", "binance", 0⟩ = .expired ∧
    fireTimer emptyMonitoringState ⟨"XUSDT", "binance", 0⟩ [] 600000 =
      emptyMonitoringState ∧
    cancelPositionMonitoring emptyMonitoringState ⟨"ZZZ", "okx", 5⟩ =
      emptyMonitoringState := by
  have h := cancel_before_fire_no_result emptyMonitoringState "XUSDT"
    "binance" 0.001 600000 0 .rateArbitrage (by norm_num) rfl rfl
    (by simp [emptyMonitoringState])
  exact ⟨h.1, h.2.1, h.2.2.1 [] 600000,
    h.2.2.2 emptyMonitoringState ⟨"ZZZ", "okx", 5⟩
      (by simp [checkState, lookupActive, emptyMonitoringState])⟩

/-- C10: the stability check divides by the absolute original rate with no
zero guard; when a check armed with original rate 0 fires and the venue is
still present with rate `cur`, the computed `changePercent` is the IEEE-754
non-finite value NaN (if `cur = 0`) or +Infinity (otherwise), `isStable`
evaluates to `false`, and a stability result is nonetheless appended to the
history. -/
theorem zero_original_rate_fires_unstable (st : MonitoringState)
    (pid : PositionId) (pos : PositionMonitoring) (data : List SpreadData)
    (now2 cur : ℚ) (tickerData : SpreadData) (exData : ExchangeFundingData)
    (htimer : pid ∈ st.scheduledTimers)
    (hlook : lookupActive st pid = some pos)
    (horig : pos.originalFundingRate = 0)
    (hfind : data.find? (fun d => decide (d.ticker = pos.ticker)) =
      some tickerData)
    (hq : tickerData.quotes pos.exchange = some exData)
    (hr : exData.fundingRate = some cur) :
    ∃ c : FundingStabilityCheck,
      (fireTimer st pid data now2).stabilityChecks =
        st.stabilityChecks ++ [c] ∧
      c.positionId = pid ∧
      c.changePercent = (if cur = 0 then JNum.nan else JNum.inf) ∧
      c.isStable = false := by
  have habs0 : mathAbs (0 : ℚ) = 0 := by norm_num [mathAbs]
  have hcp : jmul100 (jdiv (mathAbs (cur - pos.originalFundingRate))
      (mathAbs pos.originalFundingRate)) =
      (if cur = 0 then JNum.nan else JNum.inf) := by
    rw [horig, sub_zero, habs0]
    by_cases hc : cur = 0
    · rw [if_pos hc, hc, habs0]
      simp [jdiv, jmul100]
    · rw [if_neg hc]
      have hpos : 0 < mathAbs cur := by
        rw [mathAbs_eq_abs]; exact abs_pos.mpr hc
      simp [jdiv, jmul100, ne_of_gt hpos, hpos]
  have his : jle (if cur = 0 then JNum.nan else JNum.inf) 10 = false := by
    by_cases hc : cur = 0
    · rw [if_pos hc]; rfl
    · rw [if_neg hc]; rfl
  have hfire : fireTimer st pid data now2 =
      checkFundingStability
        { st with scheduledTimers := removeTimer st.scheduledTimers pid }
        pid data now2 := by
    simp only [fireTimer, htimer, if_true]
  have hlook2 : lookupActive
      { st with scheduledTimers := removeTimer st.scheduledTimers pid } pid =
      some pos := hlook
  rw [hfire]
  simp only [checkFundingStability, hlook2, hfind, hq, hr]
  refine ⟨_, rfl, rfl, ?_, ?_⟩
  · exact hcp
  · show jle (jmul100 (jdiv (mathAbs (cur - pos.originalFundingRate))
      (mathAbs pos.originalFundingRate))) 10 = false
    rw [hcp]
    exact his

/-- An armed check whose original funding rate is exactly 0. -/
def posZeroRate : PositionMonitoring :=
  { id := ⟨"XUSDT", "binance", 0⟩
    ticker := "XUSDT"
    exchange := "binance"
    originalFundingRate := 0
    nextFundingTime := 600000
    entryTime := 0
    strategy := .rateArbitrage
    checkScheduled := true
    timeoutId := true }

/-- A service state holding only `posZeroRate`, with its timer pending. -/
def stZeroRate : MonitoringState :=
  { activeMonitoring := [posZeroRate]
    stabilityChecks := []
    scheduledTimers := [⟨"XUSDT", "binance", 0⟩] }

/-- A fresh snapshot in which binance still quotes XUSDT, at rate 0.001. -/
def snapFresh : SpreadData :=
  { ticker := "XUSDT"
    quotes := fun ex =>
      if ex = "binance" then some ⟨some 0.001, 600000⟩ else none }

/-- Closed instantiation of `zero_original_rate_fires_unstable`: firing the
zero-original-rate check against `snapFresh` appends a result with
`changePercent = Infinity` and `isStable = false`. -/
theorem zero_original_rate_fires_unstable_witness :
    (fireTimer stZeroRate ⟨"XUSDT", "binance", 0⟩ [snapFresh]
        540000).stabilityChecks.map
      (fun c => (c.positionId, c.changePercent, c.isStable)) =
    [(⟨"XUSDT", "binance", 0⟩, JNum.inf, false)] := by
  obtain ⟨c, h1, h2, h3, h4⟩ := zero_original_rate_fires_unstable stZeroRate
    ⟨"XUSDT", "binance", 0⟩ posZeroRate [snapFresh] 540000 0.001 snapFresh
    ⟨some 0.001, 600000⟩
    (by simp [stZeroRate])
    (by simp [lookupActive, stZeroRate, posZeroRate])
    rfl
    (by simp [snapFresh, posZeroRate])
    (by simp [snapFresh, posZeroRate])
    rfl
  have h3i : c.changePercent = JNum.inf := by rw [h3]; norm_num
  rw [show stZeroRate.stabilityChecks = [] from rfl] at h1
  rw [h1]
  simp [h2, h3i, h4]

/-- C7: entering a rate-arbitrage opportunity arms exactly two monitoring
checks, one per leg, each with that leg's own funding rate (both at the
opportunity's recorded payout time); entering a timing-arbitrage
opportunity arms exactly one check, on the first-recorded leg
(`longExchange`) — which the strategy-2 matcher records as the leg with the
earlier payout. -/
theorem simulateTradeEntry_arming :
    (∀ (st : MonitoringState) (o : StrategyOpportunity) (now : ℚ)
        (m l : TradeCommission),
      o.strategy = .rateArbitrage →
      calculateCommissions o.longExchange o.shortExchange POSITION_SIZE
        false = some m →
      calculateCommissions o.longExchange o.shortExchange POSITION_SIZE
        true = some l →
      0 < o.nextFundingTime - now - 1 * 60 * 1000 →
      simulateTradeEntry st o now = some
        { activeMonitoring :=
            ⟨⟨o.ticker, o.shortExchange, now⟩, o.ticker, o.shortExchange,
              o.shortFundingRate, o.nextFundingTime, now, .rateArbitrage,
              true, true⟩ ::
            ⟨⟨o.ticker, o.longExchange, now⟩, o.ticker, o.longExchange,
              o.longFundingRate, o.nextFundingTime, now, .rateArbitrage,
              true, true⟩ :: st.activeMonitoring
          stabilityChecks := st.stabilityChecks
          scheduledTimers :=
            ⟨o.ticker, o.shortExchange, now⟩ ::
              ⟨o.ticker, o.longExchange, now⟩ :: st.scheduledTimers }) ∧
    (∀ (st : MonitoringState) (o : StrategyOpportunity) (now : ℚ)
        (m l : TradeCommission),
      o.strategy = .timingArbitrage →
      calculateCommissions o.longExchange o.shortExchange POSITION_SIZE
        false = some m →
      calculateCommissions o.longExchange o.shortExchange POSITION_SIZE
        true = some l →
      0 < o.nextFundingTime - now - 1 * 60 * 1000 →
      simulateTradeEntry st o now = some
        { activeMonitoring :=
            ⟨⟨o.ticker, o.longExchange, now⟩, o.ticker, o.longExchange,
              o.longFundingRate, o.nextFundingTime, now, .timingArbitrage,
              true, true⟩ :: st.activeMonitoring
          stabilityChecks := st.stabilityChecks
          scheduledTimers :=
            ⟨o.ticker, o.longExchange, now⟩ :: st.scheduledTimers }) ∧
    (∀ (cfg : Strategy2Config) (now : ℚ) (tk : String)
        (e1 e2 : AvailableExchange) (o : StrategyOpportunity),
      strategy2CheckPair cfg now tk e1 e2 = some o →
      (o.longExchange = e1.exchange ∧ o.longFundingRate = e1.fundingRate ∧
        o.nextFundingTime = e1.nextFundingTime ∧
        e1.nextFundingTime < e2.nextFundingTime) ∨
      (o.longExchange = e2.exchange ∧ o.longFundingRate = e2.fundingRate ∧
        o.nextFundingTime = e2.nextFundingTime ∧
        e2.nextFundingTime ≤ e1.nextFundingTime)) := by
  refine ⟨?_, ?_, ?_⟩
  · intro st o now m l hstrat hm hl hlead
    simp only [simulateTradeEntry, hm, hl, hstrat, startPositionMonitoring]
    rw [if_neg (not_le.mpr hlead), if_neg (not_le.mpr hlead)]
  · intro st o now m l hstrat hm hl hlead
    simp only [simulateTradeEntry, hm, hl, hstrat, startPositionMonitoring]
    rw [if_neg (not_le.mpr hlead)]
  · intro cfg now tk e1 e2 o h
    rcases (strategy2CheckPair_spec cfg now tk e1 e2 o h).1 with
      ⟨ha, -, hb, hc, hd⟩ | ⟨ha, -, hb, hc, hd⟩
    · exact Or.inl ⟨ha, hb, hc, hd⟩
    · exact Or.inr ⟨ha, hb, hc, hd⟩

/-- Closed instantiation of `simulateTradeEntry_arming`: entering the XUSDT
rate-arbitrage opportunity on the empty state arms two checks (bybit leg on
top of binance leg); entering the timing opportunity arms one; the timing
matcher recorded binance (payout at 300000, before bybit's 2160000) as the
first leg. -/
theorem simulateTradeEntry_arming_witness :
    simulateTradeEntry emptyMonitoringState oppXUSDT 0 = some
      { activeMonitoring :=
          ⟨⟨"XUSDT", "bybit", 0⟩, "XUSDT", "bybit", 0.0010, 600000, 0,
            .rateArbitrage, true, true⟩ ::
          ⟨⟨"XUSDT", "binance", 0⟩, "XUSDT", "binance", -0.0040, 600000, 0,
            .rateArbitrage, true, true⟩ :: []
        stabilityChecks := []
        scheduledTimers := [⟨"XUSDT", "bybit", 0⟩, ⟨"XUSDT", "binance", 0⟩] } ∧
    simulateTradeEntry emptyMonitoringState oppTiming 0 = some
      { activeMonitoring :=
          ⟨⟨"TUSDT", "binance", 0⟩, "TUSDT", "binance", 0.002, 300000, 0,
            .timingArbitrage, true, true⟩ :: []
        stabilityChecks := []
        scheduledTimers := [⟨"TUSDT", "binance", 0⟩] } ∧
    (oppTiming.longExchange = "binance" ∧
      oppTiming.longFundingRate = (0.002 : ℚ) ∧
      oppTiming.nextFundingTime = (300000 : ℚ) ∧
      (300000 : ℚ) < 2160000) := by
  refine ⟨?_, ?_, ?_⟩
  · exact simulateTradeEntry_arming.1 emptyMonitoringState oppXUSDT 0
      ⟨0.4, 0.55, 0.4, 0.55, 1.9, .allMarket⟩
      ⟨0.2, 0.2, 0.4, 0.55, 1.35, .limitMarket⟩
      rfl calcComm_binance_bybit_market calcComm_binance_bybit_limit
      (by norm_num [oppXUSDT])
  · exact simulateTradeEntry_arming.2.1 emptyMonitoringState oppTiming 0
      ⟨0.4, 0.55, 0.4, 0.55, 1.9, .allMarket⟩
      ⟨0.2, 0.2, 0.4, 0.55, 1.35, .limitMarket⟩
      rfl calcComm_binance_bybit_market calcComm_binance_bybit_limit
      (by norm_num [oppTiming])
  · have h := simulateTradeEntry_arming.2.2 defaultStrategy2Config 0 "TUSDT"
      ⟨"binance", 0.002, 300000⟩ ⟨"bybit", -0.002, 2160000⟩ oppTiming
      checkPair_oppTiming
    rcases h with ⟨ha, hb, hc, hd⟩ | ⟨-, -, -, hd⟩
    · exact ⟨ha, hb, hc, hd⟩
    · norm_num at hd
